import Mathlib

/-
Shallow embedding of the timed playback engine of auto-enter-by-lrc.py
(single source file, 875 lines).  Python floats are modelled as exact
rationals; Python string operations are modelled on the character lists
underlying Lean strings; the external keyboard backend is modelled by the
list of key names it knows, with keyboard.press_and_release raising on an
unmapped name.  UI-only effects (labels, buttons, list highlighting) are
modelled as emitted events where a claim needs them and dropped otherwise.
-/

namespace AutoLrc

/-- Whitespace characters stripped by Python str.strip() (ASCII subset;
the inputs of the claims are ASCII). -/
def pyWhitespace : List Char := [ ' ', '\t', '\n', '\r', '\x0b', '\x0c' ]

def isPySpace (c : Char) : Bool := pyWhitespace.contains c

/-- Model of Python str.strip() on the underlying character list. -/
def stripChars (l : List Char) : List Char :=
  ((l.dropWhile isPySpace).reverse.dropWhile isPySpace).reverse

/-- Maximal leading digit run of a character list, with the remainder. -/
def takeDigits (l : List Char) : List Char × List Char :=
  (l.takeWhile Char.isDigit, l.dropWhile Char.isDigit)

/-- Value of a digit string, as Python int() computes it. -/
def digitsToNat (l : List Char) : Nat :=
  l.foldl (fun acc c => acc * 10 + (c.toNat - 48)) 0

/-- Embeds re.match of a pattern of the shape backslash-bracket, digits,
colon, digits, sep, digits, backslash-bracket (sep is the literal dot for
parse_time pattern 1 and the load_lrc_file regex first alternative, the
colon for pattern 2 and the second alternative).  Each digit group is
followed by a non-digit literal, so any successful backtracking match makes
every group the maximal digit run; maximal munch is therefore equivalent to
the regex.  Returns the three groups and the characters after the closing
bracket (re.match anchors at the start only). -/
def matchTime (sep : Char) (l : List Char) :
    Option (List Char × List Char × List Char × List Char) :=
  match l with
  | [] => none
  | c0 :: l1 =>
    if c0 = '[' then
      if (takeDigits l1).1 = [] then none else
      match (takeDigits l1).2 with
      | [] => none
      | c1 :: l3 =>
        if c1 = ':' then
          if (takeDigits l3).1 = [] then none else
          match (takeDigits l3).2 with
          | [] => none
          | c2 :: l5 =>
            if c2 = sep then
              if (takeDigits l5).1 = [] then none else
              match (takeDigits l5).2 with
              | [] => none
              | c3 :: l7 =>
                if c3 = ']' then
                  some ((takeDigits l1).1, (takeDigits l3).1, (takeDigits l5).1, l7)
                else none
            else none
        else none
    else none

/-- Embeds parse_time (src/auto-enter-by-lrc.py lines 723-743): tries the
dotted pattern first, then the all-colon pattern; on a match the value is
minutes*60 + seconds + fraction/100 (Python float arithmetic modelled
exactly in the rationals). -/
def parse_time (l : List Char) : Option ℚ :=
  match matchTime '.' l with
  | some (d1, d2, d3, _) =>
    some ((digitsToNat d1 : ℚ) * 60 + (digitsToNat d2 : ℚ) +
      (digitsToNat d3 : ℚ) / 100)
  | none =>
    match matchTime ':' l with
    | some (d1, d2, d3, _) =>
      some ((digitsToNat d1 : ℚ) * 60 + (digitsToNat d2 : ℚ) +
        (digitsToNat d3 : ℚ) / 100)
    | none => none

/-- Embeds the line-splitting regex of load_lrc_file (line 755), an ordered
alternation of the dotted and all-colon bracketed timestamps followed by a
catch-all group: returns the matched tag characters and the remainder. -/
def splitTimeTag (l : List Char) : Option (List Char × List Char) :=
  match matchTime '.' l with
  | some (d1, d2, d3, rest) =>
    some ('[' :: d1 ++ ':' :: d2 ++ '.' :: d3 ++ [ ']' ], rest)
  | none =>
    match matchTime ':' l with
    | some (d1, d2, d3, rest) =>
      some ('[' :: d1 ++ ':' :: d2 ++ ':' :: d3 ++ [ ']' ], rest)
    | none => none

/-- One iteration of the load_lrc_file line loop (lines 751-765): strip the
line; candidates are non-empty and start with an opening bracket; split off
the bracketed timestamp, parse it, strip the remainder as the lyric text. -/
def parseLine (line : String) : Option (ℚ × String) :=
  let l := stripChars line.data
  if l ≠ [] ∧ l.head? = some '[' then
    match splitTimeTag l with
    | some (tag, rest) =>
      match parse_time tag with
      | some t => some (t, ⟨stripChars rest⟩)
      | none => none
    | none => none
  else none

/-- Comparison used for the sort on line 768 (ascending by offset). -/
def lrcLe (a b : ℚ × String) : Prop := a.1 ≤ b.1

instance (a b : ℚ × String) : Decidable (lrcLe a b) :=
  inferInstanceAs (Decidable (a.1 ≤ b.1))

/-- Embeds load_lrc_file (lines 745-768) on in-memory file content: parse
each line, keep the successes, and stable-sort ascending by offset (Python
list.sort is stable; List.insertionSort is also a stable ascending sort, and
any two stable ascending sorts of the same list agree). -/
def load_lrc (content : List String) : List (ℚ × String) :=
  List.insertionSort lrcLe (content.filterMap parseLine)

/-- Observable side effects of the engine: text emitted and keys pressed by
the keyboard backend, sleeps, highlight requests posted to the UI thread
(index minus one clears the highlight), the spawning of the timing-loop
thread, and warning dialogs. -/
inductive Event where
  | write (text : String)
  | press (key : String)
  | sleepFor (seconds : ℚ)
  | highlight (index : Int)
  | spawnThread
  | warn (title message : String)
deriving DecidableEq

/-- The params dict of an ActionBlock (lines 16-20): only the keys the code
reads, each possibly absent. -/
structure PyParams where
  text : Option String := none
  key : Option String := none
  duration : Option ℚ := none
deriving DecidableEq

/-- ActionBlock (lines 16-33): an action type tag and its params dict. -/
structure ActionBlock where
  action_type : String
  params : PyParams
deriving DecidableEq

/-- Model of keyboard.press_and_release, the external injection backend,
parametrised by the key names its key table knows: a known key produces one
press-and-release, an unknown name raises ValueError (the library message
for an unmapped key), surfaced here as the error component. -/
def press_and_release (knownKeys : List String) (k : String) :
    List Event × Option String :=
  if k ∈ knownKeys then ([ Event.press k ], none)
  else ([], some ("Key name " ++ k ++ " is not mapped to any known key."))

/-- Embeds ActionBlock.execute (lines 22-33): emitted events plus the
exception, if any, that escapes.  The focus branch and an unrecognised tag
both do nothing. -/
def ActionBlock.execute (knownKeys : List String) (a : ActionBlock) :
    List Event × Option String :=
  if a.action_type = "text" then ([ Event.write (a.params.text.getD "") ], none)
  else if a.action_type = "key" then
    press_and_release knownKeys (a.params.key.getD "enter")
  else if a.action_type = "wait" then
    ([ Event.sleepFor (a.params.duration.getD 1) ], none)
  else ([], none)

/-- Embeds execute_action_sequence (lines 855-864): for a text action a
freshly constructed temporary ActionBlock carrying the current lyric text is
executed in its place; any other action executes itself.  An exception from
an action aborts the remaining actions and escapes. -/
def execute_action_sequence (knownKeys : List String) (seq : List ActionBlock)
    (lyric_text : String) : List Event × Option String :=
  match seq with
  | [] => ([], none)
  | a :: rest =>
    let r := if a.action_type = "text"
      then ActionBlock.execute knownKeys ⟨ "text", { text := some lyric_text }⟩
      else ActionBlock.execute knownKeys a
    match r.2 with
    | some e => (r.1, some e)
    | none =>
      let w := execute_action_sequence knownKeys rest lyric_text
      (r.1 ++ w.1, w.2)

/-- The default action sequence built in LyricAutoFiller.__init__
(lines 554-557). -/
def default_action_sequence : List ActionBlock :=
  [ ⟨ "text", { text := some "" }⟩, ⟨ "key", { key := some "enter" }⟩ ]

/-- The scheduler state owned by LyricAutoFiller (lines 547-551 plus the
status label text, which distinguishes completion from a user stop). -/
structure SchedState where
  lyrics : List (ℚ × String)
  is_playing : Bool
  start_time : ℚ
  current_index : Nat
  status : String
deriving DecidableEq

def noLrcWarning : Event := Event.warn "警告" "请先选择LRC文件"

def startingStatus : String := "正在自动填写歌词..."

def stoppedStatus : String := "已停止"

def completedStatus : String := "所有歌词已填写完成"

/-- Embeds start_filling (lines 783-801); the wall-clock reading taken by
time.time() is passed in.  Returns the new state and the emitted events
(warning dialog, or the spawning of the timing-loop thread). -/
def start_filling (now : ℚ) (s : SchedState) : SchedState × List Event :=
  if s.lyrics = [] then (s, [ noLrcWarning ])
  else if s.is_playing = true then (s, [])
  else ({ s with
            is_playing := true
            start_time := now
            current_index := 0
            status := startingStatus }, [ Event.spawnThread ])

/-- Embeds stop_filling (lines 803-813): a no-op unless playing; otherwise
clears the playing flag, sets the stopped status and clears the highlight. -/
def stop_filling (s : SchedState) : SchedState × List Event :=
  if s.is_playing = false then (s, [])
  else ({ s with is_playing := false, status := stoppedStatus },
    [ Event.highlight (-1) ])

/-- How one run of the timing loop ended: the while condition became false
and the epilogue ran; an exception escaped the loop body and killed the
thread; or the supplied clock trace ran out while the loop was still
polling. -/
inductive LoopExit where
  | finished
  | crashed (err : String)
  | outOfTrace
deriving DecidableEq

/-- The code after the while loop of lyric_filling_loop (lines 833-836):
when the index has reached the record count, stop and overwrite the status
with the completion message. -/
def loopEpilogue (s : SchedState) : SchedState × List Event :=
  if s.lyrics.length ≤ s.current_index then
    let r := stop_filling s
    ({ r.1 with status := completedStatus }, r.2)
  else (s, [])

/-- Embeds lyric_filling_loop (lines 815-836), deterministically: the trace
argument supplies one time.time() reading per loop iteration.  Each
iteration re-checks the while condition; a due record is highlighted, its
action sequence dispatched, and the index incremented; an exception escaping
the dispatch propagates out of the loop (there is no handler), so the
epilogue never runs and the state is left as it was.  Every completed
iteration sleeps for one hundredth of a second. -/
def lyric_filling_loop (knownKeys : List String) (seq : List ActionBlock) :
    SchedState → List ℚ → SchedState × List Event × LoopExit
  | s, [] =>
    if s.is_playing = true ∧ s.current_index < s.lyrics.length then
      (s, [], LoopExit.outOfTrace)
    else
      let r := loopEpilogue s
      (r.1, r.2, LoopExit.finished)
  | s, t :: ts =>
    if s.is_playing = true ∧ s.current_index < s.lyrics.length then
      let cur := s.lyrics.getD s.current_index (0, "")
      if cur.1 ≤ t - s.start_time then
        let d := execute_action_sequence knownKeys seq cur.2
        match d.2 with
        | some e =>
          (s, Event.highlight (s.current_index : Int) :: d.1, LoopExit.crashed e)
        | none =>
          let r := lyric_filling_loop knownKeys seq
            { s with current_index := s.current_index + 1 } ts
          (r.1, Event.highlight (s.current_index : Int) :: d.1 ++
            Event.sleepFor (1 / 100) :: r.2.1, r.2.2)
      else
        let r := lyric_filling_loop knownKeys seq s ts
        (r.1, Event.sleepFor (1 / 100) :: r.2.1, r.2.2)
    else
      let r := loopEpilogue s
      (r.1, r.2, LoopExit.finished)

/-- Dispatch with the stored action-sequence list threaded through, making
the frame effect of execute_action_sequence visible: the code substitutes
the lyric text by building a temporary ActionBlock (line 861) and never
assigns to a stored action, so each stored action flows through unchanged. -/
def execute_action_sequence_threaded (knownKeys : List String)
    (lyric_text : String) :
    List ActionBlock → List ActionBlock × List Event × Option String
  | [] => ([], [], none)
  | a :: rest =>
    if a.action_type = "text" then
      let temp : ActionBlock := ⟨ "text", { text := some lyric_text }⟩
      let r := temp.execute knownKeys
      match r.2 with
      | some e => (a :: rest, r.1, some e)
      | none =>
        let w := execute_action_sequence_threaded knownKeys lyric_text rest
        (a :: w.1, r.1 ++ w.2.1, w.2.2)
    else
      let r := a.execute knownKeys
      match r.2 with
      | some e => (a :: rest, r.1, some e)
      | none =>
        let w := execute_action_sequence_threaded knownKeys lyric_text rest
        (a :: w.1, r.1 ++ w.2.1, w.2.2)

/-- The stored action sequence after a whole session of dispatches, one per
lyric text in the list. -/
def dispatchMany (knownKeys : List String) (seq : List ActionBlock) :
    List String → List ActionBlock
  | [] => seq
  | l :: ls =>
    dispatchMany knownKeys
      (execute_action_sequence_threaded knownKeys l seq).1 ls

/-- Counts the dispatch notifications (non-negative highlight indices) in an
event list; the clear-highlight event posted by stop_filling carries index
minus one and is not counted. -/
def isDispatchEvent (e : Event) : Bool :=
  match e with
  | Event.highlight i => decide (0 ≤ i)
  | _ => false

def dispatchCount (evs : List Event) : Nat := evs.countP isDispatchEvent

end AutoLrc

/- Batteries marks rational arithmetic irreducible for elaboration
performance; concrete evaluation in witnesses needs it unfolded.  The
kernel ignores reducibility attributes, so proofs are unaffected. -/
set_option allowUnsafeReducibility true

attribute [semireducible] Rat.add Rat.sub Rat.mul Rat.inv

namespace AutoLrc

lemma execute_no_error (ks : List String) (a : ActionBlock)
    (h : a.action_type = "key" → a.params.key.getD "enter" ∈ ks) :
    (a.execute ks).2 = none := by
  unfold ActionBlock.execute press_and_release
  split
  · rfl
  · split
    · rw [if_pos (h (by assumption))]
    · split <;> rfl

/-- Claim C2: when the scheduler dispatches the action sequence for a due
record, every text action emits the due record's lyric text rather than its
stored text field, every other action runs with its own stored parameters,
and the actions run in sequence order with no error. -/
theorem dispatch_substitutes_current_lyric (ks : List String)
    (seq : List ActionBlock) (lyric : String)
    (h : ∀ a ∈ seq, a.action_type = "key" → a.params.key.getD "enter" ∈ ks) :
    execute_action_sequence ks seq lyric =
      (seq.flatMap fun a =>
        if a.action_type = "text" then [ Event.write lyric ]
        else (a.execute ks).1, none) := by
  induction seq with
  | nil => rfl
  | cons a rest ih =>
    have ha := h a (by simp)
    have hrest : ∀ b ∈ rest, b.action_type = "key" →
        b.params.key.getD "enter" ∈ ks := fun b hb => h b (by simp [hb])
    unfold execute_action_sequence
    by_cases ht : a.action_type = "text"
    · simp only [ht, if_pos, List.flatMap_cons]
      have : (ActionBlock.execute ks ⟨ "text", { text := some lyric }⟩) =
          ([ Event.write lyric ], none) := rfl
      rw [this, ih hrest]
    · simp only [ht, if_neg, List.flatMap_cons, ite_false]
      rw [execute_no_error ks a ha]
      simp only []
      rw [ih hrest]

/-- Claim C2 witness, which is also concrete scenario C of the spec: the
default sequence dispatched for record text La la emits that text, then
presses enter; the stored empty string is never emitted. -/
theorem dispatch_substitutes_current_lyric_witness :
    execute_action_sequence [ "enter" ] default_action_sequence "La la" =
      ([ Event.write "La la", Event.press "enter" ], none) :=
  (dispatch_substitutes_current_lyric [ "enter" ] default_action_sequence
    "La la" (by decide)).trans (by decide)

/-- Claim C6: start on an empty record set reports the no-records warning,
never transitions to running, and leaves the state unchanged (hence idle). -/
theorem start_empty_records (now : ℚ) (s : SchedState)
    (h1 : s.lyrics = []) (h2 : s.is_playing = false) :
    start_filling now s = (s, [ noLrcWarning ]) ∧
    (start_filling now s).1.is_playing = false ∧
    Event.spawnThread ∉ (start_filling now s).2 := by
  have he : start_filling now s = (s, [ noLrcWarning ]) := by
    unfold start_filling
    rw [if_pos h1]
  refine ⟨he, ?_, ?_⟩
  · rw [he]; exact h2
  · rw [he]; simp [noLrcWarning]

/-- Claim C6 witness. -/
theorem start_empty_records_witness :
    start_filling 5 ⟨ [], false, 0, 0, "就绪" ⟩ =
      (⟨ [], false, 0, 0, "就绪" ⟩, [ noLrcWarning ]) ∧
    (start_filling 5 ⟨ [], false, 0, 0, "就绪" ⟩).1.is_playing = false ∧
    Event.spawnThread ∉ (start_filling 5 ⟨ [], false, 0, 0, "就绪" ⟩).2 :=
  start_empty_records 5 ⟨ [], false, 0, 0, "就绪" ⟩ rfl rfl

/-- Claim C7: calling start while already running is a no-op: the state
(including current_index and start_time) is unchanged and no second timing
thread is spawned, so at most one session is ever active. -/
theorem start_while_running_noop (now : ℚ) (s : SchedState)
    (h : s.is_playing = true) :
    (start_filling now s).1 = s ∧
    Event.spawnThread ∉ (start_filling now s).2 := by
  unfold start_filling
  by_cases hl : s.lyrics = []
  · rw [if_pos hl]; exact ⟨rfl, by simp [noLrcWarning]⟩
  · rw [if_neg hl, if_pos h]; exact ⟨rfl, by simp⟩

/-- Claim C7 witness, concrete scenario D of the spec: a second start during
a running session resets nothing and spawns nothing. -/
theorem start_while_running_noop_witness :
    (start_filling 9 ⟨ [ (0, "Hi") ], true, 2, 1, startingStatus ⟩).1 =
      ⟨ [ (0, "Hi") ], true, 2, 1, startingStatus ⟩ ∧
    Event.spawnThread ∉
      (start_filling 9 ⟨ [ (0, "Hi") ], true, 2, 1, startingStatus ⟩).2 :=
  start_while_running_noop 9 ⟨ [ (0, "Hi") ], true, 2, 1, startingStatus ⟩ rfl

/-- Claim C9: parsing is a pure function of the file content, so re-parsing
identical content yields a value-equal record sequence. -/
theorem parse_idempotent (c1 c2 : List String) (h : c1 = c2) :
    load_lrc c1 = load_lrc c2 := by rw [h]

/-- Claim C9 witness. -/
theorem parse_idempotent_witness :
    load_lrc [ "[00:00.00]Hi" ] = load_lrc [ "[00:00.00]Hi" ] :=
  parse_idempotent [ "[00:00.00]Hi" ] [ "[00:00.00]Hi" ] rfl

lemma threaded_preserves_sequence (ks : List String) (lyric : String)
    (seq : List ActionBlock) :
    (execute_action_sequence_threaded ks lyric seq).1 = seq := by
  induction seq with
  | nil => rfl
  | cons a rest ih =>
    unfold execute_action_sequence_threaded
    split <;> dsimp only <;> split <;> simp [ih]

/-- Claim C10: dispatching leaves the configured action sequence
value-unchanged, because the lyric-text substitution is performed on a
freshly constructed temporary action; after any number of dispatches every
stored action (including the default placeholder's empty text) is equal to
its pre-dispatch value. -/
theorem dispatch_frame_on_sequence (ks : List String) (seq : List ActionBlock)
    (lyrics : List String) (lyric : String) :
    (execute_action_sequence_threaded ks lyric seq).1 = seq ∧
    dispatchMany ks seq lyrics = seq ∧
    dispatchMany ks default_action_sequence lyrics = default_action_sequence := by
  have hmany : ∀ (ls : List String) (q : List ActionBlock),
      dispatchMany ks q ls = q := by
    intro ls
    induction ls with
    | nil => intro q; rfl
    | cons l ls ih =>
      intro q
      unfold dispatchMany
      rw [threaded_preserves_sequence, ih]
  exact ⟨threaded_preserves_sequence ks lyric seq, hmany lyrics seq,
    hmany lyrics default_action_sequence⟩

/-- Claim C4: the record sequence produced by parsing is sorted ascending by
offset for every input ordering; concretely, scenario A of the spec. -/
theorem parse_output_sorted :
    (∀ content : List String,
      List.Pairwise (fun a b : ℚ × String => a.1 ≤ b.1) (load_lrc content)) ∧
    load_lrc [ "[00:01.50]Hello", "[00:00.00]Hi", "not a tag" ] =
      [ (0, "Hi"), (3 / 2, "Hello") ] := by
  constructor
  · intro content
    unfold load_lrc
    have i1 : IsTotal (ℚ × String) lrcLe := ⟨fun a b => le_total a.1 b.1⟩
    have i2 : IsTrans (ℚ × String) lrcLe :=
      ⟨fun a b c hab hbc => le_trans hab hbc⟩
    exact List.sorted_insertionSort lrcLe (content.filterMap parseLine)
  · decide

/-- Claim C5: parsing is total (a Lean function never throws); a line yields
a record only if its stripped form is non-empty, starts with an opening
bracket, and matches one of the two timestamp patterns; a bracketed line
matching neither pattern (such as a metadata tag) is silently discarded. -/
theorem parse_line_discards_nonmatching (line : String) :
    (∀ r, parseLine line = some r →
      stripChars line.data ≠ [] ∧ (stripChars line.data).head? = some '[' ∧
      (splitTimeTag (stripChars line.data)).isSome = true) ∧
    ((stripChars line.data).head? = some '[' →
      splitTimeTag (stripChars line.data) = none → parseLine line = none) ∧
    parseLine "[ti:Some Title]" = none := by
  refine ⟨?_, ?_, by decide⟩
  · intro r h
    simp only [parseLine] at h
    by_cases hc : stripChars line.data ≠ [] ∧
        (stripChars line.data).head? = some '['
    · refine ⟨hc.1, hc.2, ?_⟩
      rw [if_pos hc] at h
      cases hst : splitTimeTag (stripChars line.data) with
      | none => rw [hst] at h; exact absurd h (by simp)
      | some p => simp [hst]
    · rw [if_neg hc] at h
      exact absurd h (by simp)
  · intro h1 h2
    simp only [parseLine]
    split
    · rw [h2]
    · rfl

/-- Claim C5 witness: a line carrying a valid timestamp satisfies all three
candidate conditions, and a bracketed metadata line parses to nothing. -/
theorem parse_line_discards_nonmatching_witness :
    stripChars "[00:01.50]Hello".data ≠ [] ∧
    (stripChars "[00:01.50]Hello".data).head? = some '[' ∧
    (splitTimeTag (stripChars "[00:01.50]Hello".data)).isSome = true ∧
    parseLine "[al:album]" = none := by
  have h := (parse_line_discards_nonmatching "[00:01.50]Hello").1
    (3 / 2, "Hello") (by decide)
  have h2 := (parse_line_discards_nonmatching "[al:album]").2.1
    (by decide) (by decide)
  exact ⟨h.1, h.2.1, h.2.2, h2⟩

lemma takeDigits_append (d rest : List Char) (hd : d.all Char.isDigit = true)
    (hrest : ∀ c, rest.head? = some c → c.isDigit = false) :
    takeDigits (d ++ rest) = (d, rest) := by
  induction d with
  | nil =>
    cases rest with
    | nil => rfl
    | cons c cs =>
      have hc : (c.isDigit = true) = False := by
        simp [hrest c rfl]
      unfold takeDigits
      rw [List.nil_append, List.takeWhile_cons, List.dropWhile_cons]
      simp [hc]
  | cons c cs ih =>
    rw [List.all_cons, Bool.and_eq_true] at hd
    have h2 := ih hd.2
    unfold takeDigits at h2 ⊢
    rw [Prod.mk.injEq] at h2
    rw [List.cons_append, List.takeWhile_cons, List.dropWhile_cons]
    simp only [hd.1, if_true, Prod.mk.injEq]
    exact ⟨by rw [h2.1], h2.2⟩

lemma matchTime_success (sep : Char) (m s f rest : List Char)
    (hm : m ≠ []) (hmd : m.all Char.isDigit = true)
    (hs : s ≠ []) (hsd : s.all Char.isDigit = true)
    (hf : f ≠ []) (hfd : f.all Char.isDigit = true)
    (hsep : sep.isDigit = false) :
    matchTime sep ('[' :: (m ++ ':' :: (s ++ sep :: (f ++ ']' :: rest)))) =
      some (m, s, f, rest) := by
  have h1 : takeDigits (m ++ ':' :: (s ++ sep :: (f ++ ']' :: rest))) =
      (m, ':' :: (s ++ sep :: (f ++ ']' :: rest))) :=
    takeDigits_append _ _ hmd (fun c hc => by
      rw [List.head?_cons, Option.some.injEq] at hc
      rw [← hc]; decide)
  have h2 : takeDigits (s ++ sep :: (f ++ ']' :: rest)) =
      (s, sep :: (f ++ ']' :: rest)) :=
    takeDigits_append _ _ hsd (fun c hc => by
      rw [List.head?_cons, Option.some.injEq] at hc
      rw [← hc]; exact hsep)
  have h3 : takeDigits (f ++ ']' :: rest) = (f, ']' :: rest) :=
    takeDigits_append _ _ hfd (fun c hc => by
      rw [List.head?_cons, Option.some.injEq] at hc
      rw [← hc]; decide)
  simp [matchTime, h1, h2, h3, hm, hs, hf]

lemma matchTime_dot_of_colon (m s f rest : List Char)
    (hmd : m.all Char.isDigit = true) (hsd : s.all Char.isDigit = true) :
    matchTime '.' ('[' :: (m ++ ':' :: (s ++ ':' :: (f ++ ']' :: rest)))) =
      none := by
  have h1 : takeDigits (m ++ ':' :: (s ++ ':' :: (f ++ ']' :: rest))) =
      (m, ':' :: (s ++ ':' :: (f ++ ']' :: rest))) :=
    takeDigits_append _ _ hmd (fun c hc => by
      rw [List.head?_cons, Option.some.injEq] at hc
      rw [← hc]; decide)
  have h2 : takeDigits (s ++ ':' :: (f ++ ']' :: rest)) =
      (s, ':' :: (f ++ ']' :: rest)) :=
    takeDigits_append _ _ hsd (fun c hc => by
      rw [List.head?_cons, Option.some.injEq] at hc
      rw [← hc]; decide)
  simp [matchTime, h1, h2]

lemma splitTimeTag_success (m s f rest : List Char) (sep : Char)
    (hm : m ≠ []) (hmd : m.all Char.isDigit = true)
    (hs : s ≠ []) (hsd : s.all Char.isDigit = true)
    (hf : f ≠ []) (hfd : f.all Char.isDigit = true)
    (hsep : sep = '.' ∨ sep = ':') :
    splitTimeTag ('[' :: (m ++ ':' :: (s ++ sep :: (f ++ ']' :: rest)))) =
      some ('[' :: (m ++ ':' :: (s ++ sep :: (f ++ ']' :: []))), rest) := by
  cases hsep with
  | inl h =>
    subst h
    rw [splitTimeTag, matchTime_success '.' m s f rest hm hmd hs hsd hf hfd
      (by decide)]
    simp [List.cons_append, List.append_assoc]
  | inr h =>
    subst h
    rw [splitTimeTag, matchTime_dot_of_colon m s f rest hmd hsd,
      matchTime_success ':' m s f rest hm hmd hs hsd hf hfd (by decide)]
    simp [List.cons_append, List.append_assoc]

lemma parse_time_tag (m s f : List Char) (sep : Char)
    (hm : m ≠ []) (hmd : m.all Char.isDigit = true)
    (hs : s ≠ []) (hsd : s.all Char.isDigit = true)
    (hf : f ≠ []) (hfd : f.all Char.isDigit = true)
    (hsep : sep = '.' ∨ sep = ':') :
    parse_time ('[' :: (m ++ ':' :: (s ++ sep :: (f ++ ']' :: [])))) =
      some ((digitsToNat m : ℚ) * 60 + (digitsToNat s : ℚ) +
        (digitsToNat f : ℚ) / 100) := by
  cases hsep with
  | inl h =>
    subst h
    rw [parse_time, matchTime_success '.' m s f [] hm hmd hs hsd hf hfd
      (by decide)]
  | inr h =>
    subst h
    rw [parse_time, matchTime_dot_of_colon m s f [] hmd hsd,
      matchTime_success ':' m s f [] hm hmd hs hsd hf hfd (by decide)]

/-- Claim C1: a line whose stripped form starts with a bracketed timestamp,
three non-empty digit runs separated by a colon and then a dot or a colon,
followed by any remaining text, yields exactly one record: offset
minutes*60 + seconds + fraction/100 and the stripped remainder as text
(possibly empty). -/
theorem parse_timestamped_line (line : String) (m s f rest : List Char)
    (sep : Char)
    (hm : m ≠ []) (hmd : m.all Char.isDigit = true)
    (hs : s ≠ []) (hsd : s.all Char.isDigit = true)
    (hf : f ≠ []) (hfd : f.all Char.isDigit = true)
    (hsep : sep = '.' ∨ sep = ':')
    (hline : stripChars line.data =
      '[' :: (m ++ ':' :: (s ++ sep :: (f ++ ']' :: rest)))) :
    parseLine line = some ((digitsToNat m : ℚ) * 60 + (digitsToNat s : ℚ) +
      (digitsToNat f : ℚ) / 100, ⟨stripChars rest⟩) ∧
    load_lrc [ line ] =
      [ ((digitsToNat m : ℚ) * 60 + (digitsToNat s : ℚ) +
        (digitsToNat f : ℚ) / 100, ⟨stripChars rest⟩) ] := by
  have hp : parseLine line = some ((digitsToNat m : ℚ) * 60 +
      (digitsToNat s : ℚ) + (digitsToNat f : ℚ) / 100, ⟨stripChars rest⟩) := by
    simp only [parseLine, hline]
    rw [if_pos ⟨by simp, by simp⟩]
    rw [splitTimeTag_success m s f rest sep hm hmd hs hsd hf hfd hsep]
    simp only [parse_time_tag m s f sep hm hmd hs hsd hf hfd hsep]
  refine ⟨hp, ?_⟩
  unfold load_lrc
  simp [hp]

/-- Claim C1 witness, which is also concrete scenario B of the spec: the
all-colon timestamped line `[01:02:03]Test` yields exactly the record with
offset 62.03 seconds and text Test. -/
theorem parse_timestamped_line_witness :
    parseLine "[01:02:03]Test" = some (6203 / 100, "Test") ∧
    load_lrc [ "[01:02:03]Test" ] = [ (6203 / 100, "Test") ] := by
  have h := parse_timestamped_line "[01:02:03]Test" [ '0', '1' ] [ '0', '2' ]
    [ '0', '3' ] "Test".data ':' (by decide) (by decide) (by decide)
    (by decide) (by decide) (by decide) (Or.inr rfl) (by decide)
  exact ⟨h.1.trans (by decide), h.2.trans (by decide)⟩

lemma dispatchCount_execute (ks : List String) (a : ActionBlock) :
    dispatchCount (a.execute ks).1 = 0 := by
  unfold ActionBlock.execute press_and_release
  split
  · rfl
  · split
    · split
      · rfl
      · rfl
    · split
      · rfl
      · rfl

lemma dispatchCount_append (x y : List Event) :
    dispatchCount (x ++ y) = dispatchCount x + dispatchCount y := by
  unfold dispatchCount
  rw [List.countP_append]

lemma dispatchCount_dispatch (ks : List String) (seq : List ActionBlock)
    (lyric : String) :
    dispatchCount (execute_action_sequence ks seq lyric).1 = 0 := by
  induction seq with
  | nil => rfl
  | cons a rest ih =>
    unfold execute_action_sequence
    dsimp only
    have h1 : dispatchCount ((if a.action_type = "text"
        then ActionBlock.execute ks ⟨ "text", { text := some lyric }⟩
        else ActionBlock.execute ks a)).1 = 0 := by
      split
      · exact dispatchCount_execute ks _
      · exact dispatchCount_execute ks _
    split
    · exact h1
    · rw [dispatchCount_append, h1, ih]

lemma dispatchCount_sleep_cons (evs : List Event) :
    dispatchCount (Event.sleepFor (1 / 100) :: evs) = dispatchCount evs := by
  unfold dispatchCount
  rw [List.countP_cons]
  simp [isDispatchEvent]

lemma dispatchCount_iteration (ks : List String) (seq : List ActionBlock)
    (lyric : String) (i : Nat) (evs : List Event) :
    dispatchCount ((Event.highlight (i : Int) ::
        (execute_action_sequence ks seq lyric).1) ++
      Event.sleepFor (1 / 100) :: evs) = 1 + dispatchCount evs := by
  unfold dispatchCount
  rw [List.countP_append, List.countP_cons, List.countP_cons]
  have h1 : List.countP isDispatchEvent
      (execute_action_sequence ks seq lyric).1 = 0 :=
    dispatchCount_dispatch ks seq lyric
  rw [h1]
  simp [isDispatchEvent]

lemma loopEpilogue_spec (s : SchedState) :
    (loopEpilogue s).1.lyrics = s.lyrics ∧
    (loopEpilogue s).1.current_index = s.current_index ∧
    dispatchCount (loopEpilogue s).2 = 0 ∧
    (s.lyrics.length ≤ s.current_index →
      (loopEpilogue s).1.is_playing = false ∧
      (loopEpilogue s).1.status = completedStatus) := by
  unfold loopEpilogue stop_filling
  split
  · split
    · exact ⟨rfl, rfl, rfl, fun h => ⟨by assumption, rfl⟩⟩
    · exact ⟨rfl, rfl, rfl, fun h => ⟨rfl, rfl⟩⟩
  · exact ⟨rfl, rfl, rfl, fun h => absurd h (by assumption)⟩

lemma loop_spec (ks : List String) (seq : List ActionBlock) :
    ∀ (ts : List ℚ) (s : SchedState),
      (lyric_filling_loop ks seq s ts).1.lyrics = s.lyrics ∧
      s.current_index ≤ (lyric_filling_loop ks seq s ts).1.current_index ∧
      (s.current_index ≤ s.lyrics.length →
        (lyric_filling_loop ks seq s ts).1.current_index ≤ s.lyrics.length) ∧
      ((∀ e, (lyric_filling_loop ks seq s ts).2.2 ≠ LoopExit.crashed e) →
        (lyric_filling_loop ks seq s ts).1.current_index =
          s.current_index + dispatchCount (lyric_filling_loop ks seq s ts).2.1) ∧
      (s.is_playing = true →
        (lyric_filling_loop ks seq s ts).2.2 = LoopExit.finished →
        (lyric_filling_loop ks seq s ts).1.is_playing = false ∧
        (lyric_filling_loop ks seq s ts).1.status = completedStatus ∧
        s.lyrics.length ≤ (lyric_filling_loop ks seq s ts).1.current_index) := by
  intro ts
  induction ts with
  | nil =>
    intro s
    unfold lyric_filling_loop
    split
    · exact ⟨rfl, le_refl _, fun h => h, fun _ => rfl, fun _ hf => nomatch hf⟩
    · have he := loopEpilogue_spec s
      have hlen : s.is_playing = true → s.lyrics.length ≤ s.current_index := by
        intro hp
        by_contra hlt
        exact (by assumption : ¬(s.is_playing = true ∧
          s.current_index < s.lyrics.length)) ⟨hp, Nat.lt_of_not_le hlt⟩
      refine ⟨he.1, le_of_eq he.2.1.symm, fun h => he.2.1 ▸ h, ?_, ?_⟩
      · intro _
        rw [he.2.1, he.2.2.1]
        omega
      · intro hp _
        have hge := hlen hp
        exact ⟨(he.2.2.2 hge).1, (he.2.2.2 hge).2, he.2.1 ▸ hge⟩
  | cons t ts ih =>
    intro s
    unfold lyric_filling_loop
    split
    · rename_i hcond
      dsimp only
      split
      · rename_i hdue
        split
        · rename_i e heq
          dsimp only
          refine ⟨rfl, le_refl _, fun h => h, ?_, fun _ hf => nomatch hf⟩
          intro h
          exact absurd rfl (h e)
        · rename_i heq
          dsimp only
          obtain ⟨ih1, ih2, ih3, ih4, ih5⟩ :=
            ih { s with current_index := s.current_index + 1 }
          dsimp only at ih1 ih2 ih3 ih4 ih5
          refine ⟨ih1, le_trans (Nat.le_succ _) ih2, ?_, ?_, ?_⟩
          · intro h
            exact ih3 (Nat.succ_le_of_lt hcond.2)
          · intro h
            have h4 := ih4 h
            rw [dispatchCount_iteration]
            omega
          · intro hp hf
            exact ih5 hp hf
      · dsimp only
        obtain ⟨ih1, ih2, ih3, ih4, ih5⟩ := ih s
        refine ⟨ih1, ih2, ih3, ?_, ih5⟩
        intro h
        rw [dispatchCount_sleep_cons]
        exact ih4 h
    · have he := loopEpilogue_spec s
      have hlen : s.is_playing = true → s.lyrics.length ≤ s.current_index := by
        intro hp
        by_contra hlt
        exact (by assumption : ¬(s.is_playing = true ∧
          s.current_index < s.lyrics.length)) ⟨hp, Nat.lt_of_not_le hlt⟩
      refine ⟨he.1, le_of_eq he.2.1.symm, fun h => he.2.1 ▸ h, ?_, ?_⟩
      · intro _
        rw [he.2.1, he.2.2.1]
        omega
      · intro hp _
        have hge := hlen hp
        exact ⟨(he.2.2.2 hge).1, (he.2.2.2 hge).2, he.2.1 ▸ hge⟩

/-- Claim C8: a freshly started session begins at current_index zero; during
a run the index is non-decreasing, bounded by the record count, and advances
by exactly one per dispatched record (so records fire in ascending index
order); when the index reaches the record count the loop transitions to idle
on its own and sets the completion status, which is distinct from the status
a user-initiated stop sets. -/
theorem scheduler_index_invariants (ks : List String) (seq : List ActionBlock)
    (now : ℚ) (s0 s : SchedState) (ts : List ℚ) :
    (s0.lyrics ≠ [] → s0.is_playing = false →
      (start_filling now s0).1.current_index = 0) ∧
    s.current_index ≤ (lyric_filling_loop ks seq s ts).1.current_index ∧
    (s.current_index ≤ s.lyrics.length →
      (lyric_filling_loop ks seq s ts).1.current_index ≤ s.lyrics.length) ∧
    ((∀ e, (lyric_filling_loop ks seq s ts).2.2 ≠ LoopExit.crashed e) →
      (lyric_filling_loop ks seq s ts).1.current_index =
        s.current_index + dispatchCount (lyric_filling_loop ks seq s ts).2.1) ∧
    (s.is_playing = true → s.current_index ≤ s.lyrics.length →
      (lyric_filling_loop ks seq s ts).2.2 = LoopExit.finished →
      (lyric_filling_loop ks seq s ts).1.is_playing = false ∧
      (lyric_filling_loop ks seq s ts).1.status = completedStatus ∧
      (lyric_filling_loop ks seq s ts).1.current_index = s.lyrics.length) ∧
    completedStatus ≠ stoppedStatus := by
  obtain ⟨l1, l2, l3, l4, l5⟩ := loop_spec ks seq ts s
  refine ⟨?_, l2, l3, l4, ?_, by decide⟩
  · intro h1 h2
    unfold start_filling
    rw [if_neg h1, if_neg (by simp [h2])]
  · intro hp hb hf
    obtain ⟨f1, f2, f3⟩ := l5 hp hf
    exact ⟨f1, f2, le_antisymm (l3 hb) f3⟩

/-- Claim C8 witness: a concrete start resets the index to zero, and a
concrete one-record session runs to natural completion, ending idle with the
completion status and the index equal to the record count. -/
theorem scheduler_index_invariants_witness :
    (start_filling 7 ⟨ [ (0, "Hi") ], false, 0, 3, "就绪" ⟩).1.current_index
      = 0 ∧
    ((lyric_filling_loop [ "enter" ] default_action_sequence
        ⟨ [ (0, "Hi") ], true, 0, 0, startingStatus ⟩
        [ 0 ]).1.is_playing = false ∧
      (lyric_filling_loop [ "enter" ] default_action_sequence
        ⟨ [ (0, "Hi") ], true, 0, 0, startingStatus ⟩
        [ 0 ]).1.status = completedStatus ∧
      (lyric_filling_loop [ "enter" ] default_action_sequence
        ⟨ [ (0, "Hi") ], true, 0, 0, startingStatus ⟩
        [ 0 ]).1.current_index = 1) := by
  have h := scheduler_index_invariants [ "enter" ] default_action_sequence 7
    ⟨ [ (0, "Hi") ], false, 0, 3, "就绪" ⟩
    ⟨ [ (0, "Hi") ], true, 0, 0, startingStatus ⟩ [ 0 ]
  exact ⟨h.1 (by decide) rfl, h.2.2.2.2.1 rfl (by decide) (by decide)⟩

/-- Claim C3 counterexample: with two records both long due and ample
polling time, a single unknown-key action crashes the timing loop on the
first record: the exception escapes, is_playing is left true and
current_index stays zero, so the scheduler does not keep advancing to the
next record, contrary to the claim. -/
theorem unknown_key_counterexample :
    lyric_filling_loop [ "enter" ] [ ⟨ "key", { key := some "badkey" }⟩ ]
        ⟨ [ (0, "a"), (0, "b") ], true, 0, 0, startingStatus ⟩
        [ 0, 1, 2, 3, 4 ] =
      (⟨ [ (0, "a"), (0, "b") ], true, 0, 0, startingStatus ⟩,
        [ Event.highlight 0 ],
        LoopExit.crashed
          "Key name badkey is not mapped to any known key.") := by
  decide

/-- Claim C3 as amended: a PressKey action naming an unrecognised key fails
with a ConfigurationError surfaced at dispatch time and the remaining
actions of that invocation are skipped (independently of what they are); but
the exception propagates out of the timing loop, which terminates at once
with the state unchanged: current_index is not advanced, is_playing stays
true, and the scheduler does not advance to the next record. -/
theorem unknown_key_halts_session (ks : List String) (a : ActionBlock)
    (rest seq : List ActionBlock) (lyric e : String) (devs : List Event)
    (s : SchedState) (t : ℚ) (ts : List ℚ)
    (hk : a.action_type = "key")
    (hbad : a.params.key.getD "enter" ∉ ks)
    (hp : s.is_playing = true)
    (hlt : s.current_index < s.lyrics.length)
    (hdue : (s.lyrics.getD s.current_index (0, "")).1 ≤ t - s.start_time)
    (hdisp : execute_action_sequence ks seq
      ((s.lyrics.getD s.current_index (0, "")).2) = (devs, some e)) :
    execute_action_sequence ks (a :: rest) lyric =
      ([], some ("Key name " ++ a.params.key.getD "enter" ++
        " is not mapped to any known key.")) ∧
    lyric_filling_loop ks seq s (t :: ts) =
      (s, Event.highlight (s.current_index : Int) :: devs,
        LoopExit.crashed e) := by
  constructor
  · have hexec : a.execute ks = ([], some ("Key name " ++
        a.params.key.getD "enter" ++ " is not mapped to any known key.")) := by
      unfold ActionBlock.execute press_and_release
      rw [if_neg (by rw [hk]; decide), if_pos hk, if_neg hbad]
    unfold execute_action_sequence
    dsimp only
    rw [if_neg (by rw [hk]; decide), hexec]
  · unfold lyric_filling_loop
    rw [if_pos ⟨hp, hlt⟩]
    dsimp only
    rw [if_pos hdue]
    have hd2 : (execute_action_sequence ks seq
        (s.lyrics.getD s.current_index (0, "")).2).2 = some e := by rw [hdisp]
    have hd1 : (execute_action_sequence ks seq
        (s.lyrics.getD s.current_index (0, "")).2).1 = devs := by rw [hdisp]
    rw [hd2, hd1]

/-- Claim C3 amended-claim witness. -/
theorem unknown_key_halts_session_witness :
    execute_action_sequence [ "enter" ]
        [ ⟨ "key", { key := some "badkey" }⟩,
          ⟨ "key", { key := some "enter" }⟩ ] "x" =
      ([], some "Key name badkey is not mapped to any known key.") ∧
    lyric_filling_loop [ "enter" ] [ ⟨ "key", { key := some "badkey" }⟩ ]
        ⟨ [ (0, "a"), (0, "b") ], true, 0, 0, startingStatus ⟩ [ 0, 1 ] =
      (⟨ [ (0, "a"), (0, "b") ], true, 0, 0, startingStatus ⟩,
        [ Event.highlight 0 ],
        LoopExit.crashed
          "Key name badkey is not mapped to any known key.") := by
  have h := unknown_key_halts_session [ "enter" ]
    ⟨ "key", { key := some "badkey" }⟩ [ ⟨ "key", { key := some "enter" }⟩ ]
    [ ⟨ "key", { key := some "badkey" }⟩ ] "x"
    "Key name badkey is not mapped to any known key." []
    ⟨ [ (0, "a"), (0, "b") ], true, 0, 0, startingStatus ⟩ 0 [ 1 ]
    rfl (by decide) rfl (by decide) (by decide) (by decide)
  exact ⟨h.1.trans (by decide), h.2⟩

end AutoLrc
